import Mathlib

/-!
Verification of the CivIdle client slice: the pooled resource manager
(ObjectPool / TransportPool), the TransportPool hooks, and the React
utility hooks in src/scripts/utilities/Hook.ts.

Instances handed out by the pool are identified by natural numbers in
order of construction, so `created` is simultaneously the number of
construction-hook invocations and the supply of fresh identifiers.
-/

/-- Modelled from the spec: the state of the generic `ObjectPool` base class
(`src/scripts/utilities/ObjectPool.ts` is not among the provided sources; only
its subclass `TransportPool` is).  Per spec §3/§4.1 the pool holds an active
set and an idle set of instances; `created` counts construction-hook
invocations (each new instance gets the next fresh identifier), `allocHook`
and `releaseHook` count on-allocate / on-release hook invocations. -/
structure PoolState where
  created : Nat
  active : List Nat
  idle : List Nat
  allocHook : Nat
  releaseHook : Nat
deriving DecidableEq, Repr

/-- Modelled from the spec: `allocate()` — if the idle set is non-empty,
remove and return one instance from it (we take the head; the spec leaves the
choice unspecified); otherwise construct a new instance via the construction
hook (fresh identifier `created`, incrementing the construction count).  In
both cases the instance is added to the active set and the on-allocate hook
runs before returning. -/
def allocate (s : PoolState) : Nat × PoolState :=
  match s.idle with
  | x :: rest =>
      (x, { s with idle := rest, active := x :: s.active, allocHook := s.allocHook + 1 })
  | [] =>
      (s.created,
        { created := s.created + 1, active := s.created :: s.active, idle := [],
          allocHook := s.allocHook + 1, releaseHook := s.releaseHook })

/-- Modelled from the spec: `release(instance)` — precondition: the instance
is in the active set.  On success it moves the instance from active to idle
and invokes the on-release hook; on a precondition violation the fault path
fires (`false` in the second component) and the state is left unchanged. -/
def release (x : Nat) (s : PoolState) : PoolState × Bool :=
  if x ∈ s.active then
    (⟨s.created, s.active.erase x, x :: s.idle, s.allocHook, s.releaseHook + 1⟩, true)
  else
    (s, false)

/-- The freshly constructed pool: no instances exist yet. -/
def initPool : PoolState := ⟨0, [], [], 0, 0⟩

/-- Pool states reachable from the fresh pool by any sequence of allocate and
release calls (including faulting releases, which leave the state unchanged). -/
inductive Reachable : PoolState → Prop where
  | init : Reachable initPool
  | alloc {s : PoolState} : Reachable s → Reachable (allocate s).2
  | rel (x : Nat) {s : PoolState} : Reachable s → Reachable (release x s).1

/-- Iterated allocation: `allocN n s` performs `n` allocate calls. -/
def allocN : Nat → PoolState → PoolState
  | 0, s => s
  | n + 1, s => (allocate (allocN n s)).2

/-- Sequential release of a list of instances (left to right). -/
def releaseList (l : List Nat) (s : PoolState) : PoolState :=
  l.foldl (fun t x => (release x t).1) s

theorem allocate_fst_cons (s : PoolState) (x : Nat) (rest : List Nat) (h : s.idle = x :: rest) :
    (allocate s).1 = x := by
  simp [allocate, h]

theorem allocate_snd_cons (s : PoolState) (x : Nat) (rest : List Nat) (h : s.idle = x :: rest) :
    (allocate s).2 = ⟨s.created, x :: s.active, rest, s.allocHook + 1, s.releaseHook⟩ := by
  simp [allocate, h]

theorem allocate_fst_nil (s : PoolState) (h : s.idle = []) :
    (allocate s).1 = s.created := by
  simp [allocate, h]

theorem allocate_snd_nil (s : PoolState) (h : s.idle = []) :
    (allocate s).2 =
      ⟨s.created + 1, s.created :: s.active, [], s.allocHook + 1, s.releaseHook⟩ := by
  simp [allocate, h]

theorem release_fst_mem (x : Nat) (s : PoolState) (h : x ∈ s.active) :
    (release x s).1 =
      ⟨s.created, s.active.erase x, x :: s.idle, s.allocHook, s.releaseHook + 1⟩ := by
  simp [release, h]

theorem release_snd_mem (x : Nat) (s : PoolState) (h : x ∈ s.active) :
    (release x s).2 = true := by
  simp [release, h]

theorem release_not_mem (x : Nat) (s : PoolState) (h : x ∉ s.active) :
    release x s = (s, false) := by
  simp [release, h]

/-- The pool bookkeeping invariant: active and idle are duplicate-free and
disjoint, and together they hold exactly the instances ever created. -/
def PoolInv (s : PoolState) : Prop :=
  s.active.Nodup ∧ s.idle.Nodup ∧
  (∀ x, x ∈ s.active → x ∉ s.idle) ∧
  (∀ x, (x ∈ s.active ∨ x ∈ s.idle) ↔ x < s.created)

theorem inv_init : PoolInv initPool := by
  refine ⟨List.nodup_nil, List.nodup_nil, ?_, ?_⟩ <;> simp [initPool]

theorem inv_allocate (s : PoolState) (h : PoolInv s) : PoolInv (allocate s).2 := by
  obtain ⟨hA, hI, hD, hU⟩ := h
  cases hidle : s.idle with
  | nil =>
      rw [allocate_snd_nil s hidle]
      dsimp only [PoolInv]
      refine ⟨?_, List.nodup_nil, ?_, ?_⟩
      · refine List.nodup_cons.mpr ⟨fun hc => ?_, hA⟩
        have := (hU s.created).mp (Or.inl hc)
        omega
      · intro x _ hx
        simp at hx
      · intro x
        constructor
        · rintro (hx | hx)
          · rcases List.mem_cons.mp hx with rfl | hx
            · omega
            · have := (hU x).mp (Or.inl hx)
              omega
          · simp at hx
        · intro hlt
          by_cases hx : x = s.created
          · exact Or.inl (by simp [hx])
          · have hlt' : x < s.created := by omega
            rcases (hU x).mpr hlt' with h1 | h1
            · exact Or.inl (List.mem_cons_of_mem _ h1)
            · rw [hidle] at h1
              simp at h1
  | cons y rest =>
      rw [allocate_snd_cons s y rest hidle]
      dsimp only [PoolInv]
      have hyI : y ∈ s.idle := by rw [hidle]; exact List.mem_cons_self y rest
      have hIr : (y :: rest).Nodup := by rw [← hidle]; exact hI
      refine ⟨?_, (List.nodup_cons.mp hIr).2, ?_, ?_⟩
      · exact List.nodup_cons.mpr ⟨fun hc => hD y hc hyI, hA⟩
      · intro x hx hxr
        rcases List.mem_cons.mp hx with rfl | hx
        · exact (List.nodup_cons.mp hIr).1 hxr
        · exact hD x hx (by rw [hidle]; exact List.mem_cons_of_mem _ hxr)
      · intro x
        rw [← hU x]
        constructor
        · rintro (hx | hx)
          · rcases List.mem_cons.mp hx with rfl | hx
            · exact Or.inr hyI
            · exact Or.inl hx
          · exact Or.inr (by rw [hidle]; exact List.mem_cons_of_mem _ hx)
        · rintro (hx | hx)
          · exact Or.inl (List.mem_cons_of_mem _ hx)
          · rw [hidle] at hx
            rcases List.mem_cons.mp hx with rfl | hx
            · exact Or.inl (List.mem_cons_self _ _)
            · exact Or.inr hx

theorem inv_release (x : Nat) (s : PoolState) (h : PoolInv s) : PoolInv (release x s).1 := by
  obtain ⟨hA, hI, hD, hU⟩ := h
  by_cases hx : x ∈ s.active
  · rw [release_fst_mem x s hx]
    dsimp only [PoolInv]
    refine ⟨hA.erase x, List.nodup_cons.mpr ⟨hD x hx, hI⟩, ?_, ?_⟩
    · intro z hz hzi
      have hz' : z ∈ s.active := List.mem_of_mem_erase hz
      rcases List.mem_cons.mp hzi with rfl | hzi
      · exact (hA.not_mem_erase) hz
      · exact hD z hz' hzi
    · intro z
      rw [← hU z]
      constructor
      · rintro (hz | hz)
        · exact Or.inl (List.mem_of_mem_erase hz)
        · rcases List.mem_cons.mp hz with rfl | hz
          · exact Or.inl hx
          · exact Or.inr hz
      · rintro (hz | hz)
        · by_cases hzx : z = x
          · exact Or.inr (by rw [hzx]; exact List.mem_cons_self _ _)
          · exact Or.inl ((List.mem_erase_of_ne hzx).mpr hz)
        · exact Or.inr (List.mem_cons_of_mem _ hz)
  · rw [release_not_mem x s hx]
    exact ⟨hA, hI, hD, hU⟩

theorem reachable_inv (s : PoolState) (h : Reachable s) : PoolInv s := by
  induction h with
  | init => exact inv_init
  | alloc _ ih => exact inv_allocate _ ih
  | rel x _ ih => exact inv_release x _ ih

theorem allocate_mem_active (s : PoolState) : (allocate s).1 ∈ (allocate s).2.active := by
  cases hidle : s.idle with
  | nil =>
      rw [allocate_fst_nil s hidle, allocate_snd_nil s hidle]
      exact List.mem_cons_self _ _
  | cons y rest =>
      rw [allocate_fst_cons s y rest hidle, allocate_snd_cons s y rest hidle]
      exact List.mem_cons_self _ _

theorem allocate_fresh (s : PoolState) (h : PoolInv s) : (allocate s).1 ∉ s.active := by
  obtain ⟨_, _, hD, hU⟩ := h
  cases hidle : s.idle with
  | nil =>
      rw [allocate_fst_nil s hidle]
      intro hc
      have := (hU s.created).mp (Or.inl hc)
      omega
  | cons y rest =>
      rw [allocate_fst_cons s y rest hidle]
      intro hc
      exact hD y hc (by rw [hidle]; exact List.mem_cons_self y rest)

theorem allocate_created_of_idle_cons (s : PoolState) (h : s.idle ≠ []) :
    (allocate s).2.created = s.created := by
  cases hidle : s.idle with
  | nil => exact absurd hidle h
  | cons y rest => rw [allocate_snd_cons s y rest hidle]

/-- Claim C1: allocate reuses before growing.  If the idle set is non-empty,
the returned instance comes from the idle set and the construction count
(`created`) is unchanged; the construction count changes only when the idle
set is empty; after releasing an active instance, one allocate performs no
construction; and when a construction does happen, the new instance is fresh
(identifier `created`, previously in neither set), so each instance is
constructed at most once, lazily. -/
theorem allocate_reuse_before_growth (s : PoolState) (h : Reachable s) :
    (s.idle ≠ [] → (allocate s).1 ∈ s.idle ∧ (allocate s).2.created = s.created) ∧
    ((allocate s).2.created ≠ s.created → s.idle = []) ∧
    (∀ x, x ∈ s.active → (allocate (release x s).1).2.created = s.created) ∧
    (s.idle = [] →
      (allocate s).1 = s.created ∧ (allocate s).1 ∉ s.active ∧ (allocate s).1 ∉ s.idle) := by
  refine ⟨?_, ?_, ?_, ?_⟩
  · intro hne
    cases hidle : s.idle with
    | nil => exact absurd hidle hne
    | cons y rest =>
        rw [allocate_fst_cons s y rest hidle, allocate_snd_cons s y rest hidle]
        exact ⟨List.mem_cons_self y rest, rfl⟩
  · intro hne
    by_contra hcons
    exact hne (allocate_created_of_idle_cons s hcons)
  · intro x hx
    rw [release_fst_mem x s hx]
    rw [allocate_snd_cons _ x s.idle rfl]
  · intro hidle
    refine ⟨allocate_fst_nil s hidle, ?_, ?_⟩
    · exact allocate_fresh s (reachable_inv s h)
    · rw [hidle]
      simp

/-- Claim C1 witness: in the reachable state reached by allocate, release 0
(created = 1, active empty, idle = [0]), one allocate reuses instance 0 and
performs no construction. -/
theorem allocate_reuse_before_growth_witness :
    (allocate ⟨1, [], [0], 1, 1⟩).1 ∈ (PoolState.mk 1 [] [0] 1 1).idle ∧
    (allocate ⟨1, [], [0], 1, 1⟩).2.created = 1 :=
  (allocate_reuse_before_growth ⟨1, [], [0], 1, 1⟩
      (Reachable.rel 0 (Reachable.alloc Reachable.init))).1 (by decide)

/-- Claim C2: in any reachable state the instance returned by allocate is not
already in the active set, and two consecutive allocate calls with no
intervening release return distinct instances. -/
theorem allocate_no_aliasing (s : PoolState) (h : Reachable s) :
    (allocate s).1 ∉ s.active ∧
    (allocate (allocate s).2).1 ≠ (allocate s).1 := by
  refine ⟨allocate_fresh s (reachable_inv s h), ?_⟩
  intro heq
  have h2 : (allocate (allocate s).2).1 ∉ (allocate s).2.active :=
    allocate_fresh (allocate s).2 (reachable_inv _ (Reachable.alloc h))
  exact h2 (heq ▸ allocate_mem_active s)

/-- Claim C2 witness: from the fresh pool, the first allocate returns an
instance outside the (empty) active set and the second allocate returns a
different instance. -/
theorem allocate_no_aliasing_witness :
    (allocate initPool).1 ∉ initPool.active ∧
    (allocate (allocate initPool).2).1 ≠ (allocate initPool).1 :=
  allocate_no_aliasing initPool Reachable.init

/-- Claim C3: in every reachable state the active and idle sets are disjoint
and together hold exactly the instances ever created (each instance is in
exactly one set); no operation destroys an instance: the construction count
never decreases and every existing instance is still in one of the two sets
after any allocate or release. -/
theorem pool_partition_invariant (s : PoolState) (h : Reachable s) :
    (∀ x, x ∈ s.active → x ∉ s.idle) ∧
    (∀ x, (x ∈ s.active ∨ x ∈ s.idle) ↔ x < s.created) ∧
    s.created ≤ (allocate s).2.created ∧
    (∀ y, (release y s).1.created = s.created) ∧
    (∀ x, x < s.created → x ∈ (allocate s).2.active ∨ x ∈ (allocate s).2.idle) ∧
    (∀ y x, x < s.created → x ∈ (release y s).1.active ∨ x ∈ (release y s).1.idle) := by
  obtain ⟨hA, hI, hD, hU⟩ := reachable_inv s h
  have hcreated_alloc : s.created ≤ (allocate s).2.created := by
    cases hidle : s.idle with
    | nil =>
        rw [allocate_snd_nil s hidle]
        exact Nat.le_succ s.created
    | cons y rest => rw [allocate_snd_cons s y rest hidle]
  have hcreated_rel : ∀ y, (release y s).1.created = s.created := by
    intro y
    by_cases hy : y ∈ s.active
    · rw [release_fst_mem y s hy]
    · rw [release_not_mem y s hy]
  refine ⟨hD, hU, hcreated_alloc, hcreated_rel, ?_, ?_⟩
  · intro x hx
    obtain ⟨_, _, _, hU'⟩ := reachable_inv _ (Reachable.alloc h)
    exact (hU' x).mpr (by omega)
  · intro y x hx
    obtain ⟨_, _, _, hU'⟩ := reachable_inv _ (Reachable.rel y h)
    exact (hU' x).mpr (by rw [hcreated_rel y]; exact hx)

/-- Claim C3 witness: in the reachable state after one allocate, instance 0
is accounted for: it is in exactly one of the two sets since it was created. -/
theorem pool_partition_invariant_witness :
    (0 ∈ (PoolState.mk 1 [0] [] 1 0).active ∨ 0 ∈ (PoolState.mk 1 [0] [] 1 0).idle) ↔
      0 < (PoolState.mk 1 [0] [] 1 0).created :=
  (pool_partition_invariant ⟨1, [0], [], 1, 0⟩ (Reachable.alloc Reachable.init)).2.1 0

theorem allocN_from_empty (s : PoolState) (hA : s.active = []) (hI : s.idle = []) :
    ∀ N : Nat,
      (allocN N s).idle = [] ∧ (allocN N s).active.length = N ∧
      (allocN N s).active.Nodup ∧
      (∀ x, x ∈ (allocN N s).active → x < (allocN N s).created) := by
  intro N
  induction N with
  | zero => exact ⟨hI, by rw [allocN, hA]; rfl, by rw [allocN, hA]; exact List.nodup_nil,
      by rw [allocN, hA]; intro x hx; simp at hx⟩
  | succ n ih =>
      obtain ⟨ihI, ihL, ihN, ihB⟩ := ih
      have hstep : allocN (n + 1) s = (allocate (allocN n s)).2 := rfl
      rw [hstep, allocate_snd_nil _ ihI]
      refine ⟨rfl, by rw [List.length_cons, ihL], ?_, ?_⟩
      · exact List.nodup_cons.mpr ⟨fun hc => absurd (ihB _ hc) (Nat.lt_irrefl _), ihN⟩
      · intro x hx
        rcases List.mem_cons.mp hx with rfl | hx
        · exact Nat.lt_succ_self _
        · exact Nat.lt_succ_of_lt (ihB x hx)

theorem releaseList_perm_active (l : List Nat) :
    ∀ s : PoolState, l.Nodup → l.Perm s.active →
      (releaseList l s).active = [] ∧
      (releaseList l s).idle.length = s.idle.length + l.length := by
  induction l with
  | nil =>
      intro s _ hperm
      have hact : s.active = [] := (hperm.symm).eq_nil
      exact ⟨hact, rfl⟩
  | cons x t ih =>
      intro s hnd hperm
      have hx : x ∈ s.active := hperm.mem_iff.mp (List.mem_cons_self x t)
      have hstep : releaseList (x :: t) s = releaseList t (release x s).1 := rfl
      rw [hstep, release_fst_mem x s hx]
      have hpt : t.Perm (s.active.erase x) := by
        have h1 : s.active.Perm (x :: s.active.erase x) := List.perm_cons_erase hx
        exact (List.perm_cons x).mp (hperm.trans h1)
      obtain ⟨h1, h2⟩ := ih ⟨s.created, s.active.erase x, x :: s.idle, s.allocHook,
        s.releaseHook + 1⟩ (List.nodup_cons.mp hnd).2 hpt
      refine ⟨h1, ?_⟩
      rw [h2]
      simp
      omega

/-- Claim C4 counterexample: the state with created = 2, active = [], idle =
[1, 0] is reachable (allocate, allocate, release 0, release 1) and has an
empty active set, yet N = 1 allocation followed by releasing the allocated
instance (instance 1) leaves the idle set at size 2, not N = 1. -/
theorem roundtrip_size_counterexample :
    Reachable ⟨2, [], [1, 0], 2, 2⟩ ∧
    (PoolState.mk 2 [] [1, 0] 2 2).active = [] ∧
    (allocN 1 ⟨2, [], [1, 0], 2, 2⟩).active = [1] ∧
    (releaseList [1] (allocN 1 ⟨2, [], [1, 0], 2, 2⟩)).active.length = 0 ∧
    (releaseList [1] (allocN 1 ⟨2, [], [1, 0], 2, 2⟩)).idle.length ≠ 1 := by
  refine ⟨?_, rfl, by decide, by decide, by decide⟩
  exact Reachable.rel 1 (Reachable.rel 0 (Reachable.alloc (Reachable.alloc Reachable.init)))

/-- Claim C4 (amended): starting from a pool state whose active and idle sets
are both empty (in particular the fresh pool), after N allocate calls
followed by releasing the N allocated instances in any order, the idle-set
size equals N and the active-set size equals 0. -/
theorem roundtrip_size_amended (s : PoolState) (hA : s.active = []) (hI : s.idle = [])
    (N : Nat) (l : List Nat) (hperm : l.Perm (allocN N s).active) :
    (releaseList l (allocN N s)).idle.length = N ∧
    (releaseList l (allocN N s)).active.length = 0 := by
  obtain ⟨hNI, hNL, hNN, _⟩ := allocN_from_empty s hA hI N
  have hnd : l.Nodup := (hperm.nodup_iff).mpr hNN
  obtain ⟨h1, h2⟩ := releaseList_perm_active l (allocN N s) hnd hperm
  refine ⟨?_, by rw [h1]; rfl⟩
  rw [h2, hNI, hperm.length_eq, hNL]
  simp

/-- Claim C4 (amended) witness: from the fresh pool, two allocations (which
return instances 0 and 1) followed by releasing them in the reversed order
[0, 1] leave idle-set size 2 and active-set size 0. -/
theorem roundtrip_size_amended_witness :
    (releaseList [0, 1] (allocN 2 initPool)).idle.length = 2 ∧
    (releaseList [0, 1] (allocN 2 initPool)).active.length = 0 :=
  roundtrip_size_amended initPool rfl rfl 2 [0, 1] (by decide)

/-- Claim C5: releasing an instance that is not in the active set triggers
the fault path (`false`) and leaves the pool state unchanged (atomicity on
error); releasing an active instance removes it from the active set, pushes
it onto the idle set, and invokes the on-release hook exactly once. -/
theorem release_precondition_check (s : PoolState) (x : Nat) :
    (x ∉ s.active → release x s = (s, false)) ∧
    (x ∈ s.active →
      (release x s).1.active = s.active.erase x ∧
      (release x s).1.idle = x :: s.idle ∧
      (release x s).1.releaseHook = s.releaseHook + 1 ∧
      (release x s).1.created = s.created ∧
      (release x s).2 = true) := by
  constructor
  · intro hx
    exact release_not_mem x s hx
  · intro hx
    rw [release_fst_mem x s hx, release_snd_mem x s hx]
    exact ⟨rfl, rfl, rfl, rfl, rfl⟩

/-- Claim C5 witness: in the pool with one active instance 0, releasing the
never-allocated instance 5 faults and leaves the state unchanged, while
releasing 0 moves it to the idle set. -/
theorem release_precondition_check_witness :
    release 5 ⟨1, [0], [], 1, 0⟩ = (⟨1, [0], [], 1, 0⟩, false) ∧
    (release 0 ⟨1, [0], [], 1, 0⟩).1.idle = [0] :=
  ⟨(release_precondition_check ⟨1, [0], [], 1, 0⟩ 5).1 (by decide),
   ((release_precondition_check ⟨1, [0], [], 1, 0⟩ 0).2 (by decide)).2.1⟩

/-- A pixi.js runtime value as seen by the TransportPool constructor check:
either a `Texture` instance or some value that is not a `Texture`. -/
inductive PixiValue where
  | texture (id : Nat)
  | other
deriving DecidableEq, Repr

/-- Whether a value is a `Texture` instance (`texture instanceof Texture`). -/
def isTexture : PixiValue → Bool
  | .texture _ => true
  | .other => false

/-- The pixi.js `Sprite` fields touched by TransportPool, with exact scalar
values carried as rationals (the code only assigns constants, never computes
with them). -/
structure Sprite where
  texture : PixiValue
  alpha : ℚ
  scaleX : ℚ
  scaleY : ℚ
  anchorX : ℚ
  anchorY : ℚ
deriving DecidableEq, Repr

/-- A freshly constructed `new Sprite(texture)` with pixi.js defaults:
alpha 1, scale (1, 1), anchor (0, 0). -/
def Sprite.new (t : PixiValue) : Sprite := ⟨t, 1, 1, 1, 0, 0⟩

/-- The fields the TransportPool constructor stores. -/
structure TransportPoolData where
  _texture : PixiValue
  _parent : Nat
deriving DecidableEq, Repr

def TransportPool.DefaultAlpha : ℚ := 0.5

/-- The TransportPool constructor: runs
`console.assert(texture instanceof Texture, "Texture is not valid")` and
stores the texture and parent.  The Bool component is the assert condition;
`false` means the assertion check failed and reports. -/
def TransportPool.construct (texture : PixiValue) (parent : Nat) :
    TransportPoolData × Bool :=
  (⟨texture, parent⟩, isTexture texture)

/-- `TransportPool.create`: builds a Sprite from the configured texture, adds
it as a child of the configured parent container (modelled by the container's
children list, the only part of the parent the method touches), then sets
scale to (0.15, 0.15) and anchor to (1, 0.5).  The mutations happen after
`addChild`, so the child stored in the container is the fully set-up sprite. -/
def TransportPool.create (pool : TransportPoolData) (children : List Sprite) :
    Sprite × List Sprite :=
  let visual : Sprite :=
    { Sprite.new pool._texture with
        scaleX := 0.15, scaleY := 0.15, anchorX := 1, anchorY := 0.5 }
  (visual, children ++ [visual])

/-- A heap of sprite instances addressed by identifier; `obj.alpha = v` on
instance `i` is the pointwise update of that one field of that one cell. -/
def setAlpha (h : Nat → Sprite) (i : Nat) (v : ℚ) : Nat → Sprite :=
  fun j => if j = i then { h j with alpha := v } else h j

/-- `TransportPool.onAllocate(obj)`: `obj.alpha = TransportPool.DefaultAlpha`. -/
def TransportPool.onAllocate (h : Nat → Sprite) (i : Nat) : Nat → Sprite :=
  setAlpha h i TransportPool.DefaultAlpha

/-- `TransportPool.onRelease(obj)`: `obj.alpha = 0`. -/
def TransportPool.onRelease (h : Nat → Sprite) (i : Nat) : Nat → Sprite :=
  setAlpha h i 0

/-- Claim C6: `TransportPool.onRelease` sets the instance's alpha to 0 and
`TransportPool.onAllocate` sets it to `DefaultAlpha = 0.5`; both hooks leave
every other field of the instance (texture, scale, anchor) unchanged, leave
every other instance in the heap untouched, and take no pool bookkeeping at
all, so the sprite is never destroyed. -/
theorem transport_hooks_alpha_only (h : Nat → Sprite) (i : Nat) :
    (TransportPool.onRelease h i i).alpha = 0 ∧
    (TransportPool.onAllocate h i i).alpha = TransportPool.DefaultAlpha ∧
    TransportPool.DefaultAlpha = 0.5 ∧
    (TransportPool.onAllocate h i i).texture = (h i).texture ∧
    (TransportPool.onAllocate h i i).scaleX = (h i).scaleX ∧
    (TransportPool.onAllocate h i i).scaleY = (h i).scaleY ∧
    (TransportPool.onAllocate h i i).anchorX = (h i).anchorX ∧
    (TransportPool.onAllocate h i i).anchorY = (h i).anchorY ∧
    (TransportPool.onRelease h i i).texture = (h i).texture ∧
    (TransportPool.onRelease h i i).scaleX = (h i).scaleX ∧
    (TransportPool.onRelease h i i).scaleY = (h i).scaleY ∧
    (TransportPool.onRelease h i i).anchorX = (h i).anchorX ∧
    (TransportPool.onRelease h i i).anchorY = (h i).anchorY ∧
    (∀ j, j ≠ i → TransportPool.onAllocate h i j = h j) ∧
    (∀ j, j ≠ i → TransportPool.onRelease h i j = h j) := by
  have hother : ∀ (v : ℚ) (j : Nat), j ≠ i → setAlpha h i v j = h j := by
    intro v j hj
    simp [setAlpha, hj]
  refine ⟨?_, ?_, rfl, ?_, ?_, ?_, ?_, ?_, ?_, ?_, ?_, ?_, ?_,
      fun j hj => hother _ j hj, fun j hj => hother _ j hj⟩ <;>
    simp [TransportPool.onAllocate, TransportPool.onRelease, setAlpha]

/-- Claim C6 witness: on a concrete one-sprite heap, releasing instance 0
zeroes its alpha while instance 1 is untouched. -/
theorem transport_hooks_alpha_only_witness :
    (TransportPool.onRelease (fun _ => Sprite.new PixiValue.other) 0 0).alpha = 0 ∧
    (TransportPool.onRelease (fun _ => Sprite.new PixiValue.other) 0 1 =
      Sprite.new PixiValue.other) :=
  ⟨(transport_hooks_alpha_only (fun _ => Sprite.new PixiValue.other) 0).1,
   (transport_hooks_alpha_only (fun _ => Sprite.new PixiValue.other) 0).2.2.2.2.2.2.2.2.2.2.2.2.2.2
     1 (by decide)⟩

/-- Claim C7: the TransportPool constructor's assertion check fails exactly
when the texture argument is not a `Texture` instance; the constructor stores
the given texture and parent. -/
theorem construct_assert_exact (t : PixiValue) (p : Nat) :
    ((TransportPool.construct t p).2 = false ↔ ∀ id, t ≠ PixiValue.texture id) ∧
    (TransportPool.construct t p).1._texture = t ∧
    (TransportPool.construct t p).1._parent = p := by
  refine ⟨?_, rfl, rfl⟩
  cases t with
  | texture k => simp [TransportPool.construct, isTexture]
  | other => simp [TransportPool.construct, isTexture]

/-- Claim C7 witness: constructing with a non-Texture value makes the
assertion check fail. -/
theorem construct_assert_exact_witness :
    (TransportPool.construct PixiValue.other 0).2 = false :=
  (construct_assert_exact PixiValue.other 0).1.mpr (fun _ h => PixiValue.noConfusion h)

/-- Claim C8: `TransportPool.create` returns a sprite built from the pool's
configured texture with scale (0.15, 0.15) and anchor (1, 0.5), and the
sprite has been appended as a child of the configured parent container. -/
theorem create_wires_sprite (pool : TransportPoolData) (children : List Sprite) :
    (TransportPool.create pool children).1.texture = pool._texture ∧
    (TransportPool.create pool children).1.scaleX = 0.15 ∧
    (TransportPool.create pool children).1.scaleY = 0.15 ∧
    (TransportPool.create pool children).1.anchorX = 1 ∧
    (TransportPool.create pool children).1.anchorY = 0.5 ∧
    (TransportPool.create pool children).2 =
      children ++ [(TransportPool.create pool children).1] :=
  ⟨rfl, rfl, rfl, rfl, rfl, rfl⟩

/-- The shortcut registry returned by `getShortcuts()`: a keyed-callback map
from shortcut names to an optional handler (TS `undefined` is `none`);
callbacks are identified by number. -/
def ShortcutRegistry : Type := String → Option Nat

/-- The effect body of `useShortcut`: `shortcuts[shortcut] = callback`. -/
def useShortcutEffect (r : ShortcutRegistry) (k : String) (cb : Nat) : ShortcutRegistry :=
  fun j => if j = k then some cb else r j

/-- The effect cleanup of `useShortcut`: `shortcuts[shortcut] = undefined`. -/
def useShortcutCleanup (r : ShortcutRegistry) (k : String) : ShortcutRegistry :=
  fun j => if j = k then none else r j

/-- Claim C9: the `useShortcut` effect sets the registry entry for its key to
the callback, its cleanup unconditionally sets that entry to `undefined`
(regardless of the registry's contents, so a previous value is never
restored), and both leave every other key's entry unchanged. -/
theorem useShortcut_effect_cleanup (r : ShortcutRegistry) (k j : String) (cb : Nat) :
    useShortcutEffect r k cb k = some cb ∧
    useShortcutCleanup r k k = none ∧
    useShortcutCleanup (useShortcutEffect r k cb) k k = none ∧
    (r k ≠ none → useShortcutCleanup (useShortcutEffect r k cb) k k ≠ r k) ∧
    (j ≠ k → useShortcutEffect r k cb j = r j ∧ useShortcutCleanup r k j = r j) := by
  refine ⟨?_, ?_, ?_, ?_, ?_⟩
  · simp [useShortcutEffect]
  · simp [useShortcutCleanup]
  · simp [useShortcutCleanup]
  · intro hne
    simp only [useShortcutCleanup, if_pos rfl]
    exact fun hc => hne hc.symm
  · intro hj
    exact ⟨by simp [useShortcutEffect, hj], by simp [useShortcutCleanup, hj]⟩

/-- Claim C9 witness: with key "a" mapped to callback 7 beforehand, mounting
with callback 3 and unmounting clears the entry to `undefined` (not back to
7), while key "b" keeps its value. -/
theorem useShortcut_effect_cleanup_witness :
    useShortcutCleanup (useShortcutEffect (fun _ => some 7) "a" 3) "a" "a" = none ∧
    useShortcutCleanup (useShortcutEffect (fun _ => some 7) "a" 3) "a" "a" ≠ some 7 ∧
    useShortcutEffect (fun _ => some 7) "a" 3 "b" = some 7 :=
  ⟨(useShortcut_effect_cleanup (fun _ => some 7) "a" "b" 3).2.2.1,
   (useShortcut_effect_cleanup (fun _ => some 7) "a" "b" 3).2.2.2.1 (by simp),
   ((useShortcut_effect_cleanup (fun _ => some 7) "a" "b" 3).2.2.2.2 (by decide)).1⟩

/-- Modelled from the spec: the `TypedEvent` collaborator
(`shared/utilities/TypedEvent` is not among the provided sources).  Per spec
§6/§9 it maintains a set of subscriber callbacks; `on` registers a listener
and `off` deregisters it, both idempotently.  Listeners are identified by
number (reference identity of the closure). -/
structure TypedEvent where
  listeners : Finset Nat
deriving DecidableEq

/-- Modelled from the spec: `event.on(listener)` adds the listener to the
subscriber set. -/
def TypedEvent.on (e : TypedEvent) (l : Nat) : TypedEvent :=
  ⟨insert l e.listeners⟩

/-- Modelled from the spec: `event.off(listener)` removes the listener from
the subscriber set. -/
def TypedEvent.off (e : TypedEvent) (l : Nat) : TypedEvent :=
  ⟨e.listeners.erase l⟩

/-- The listener registered by `makeObservableHook`'s `observe`:
`setter(old => old + 1)` — it bumps the re-render counter and ignores the
event payload entirely. -/
def handleEvent (T : Type) (counter : Nat) (_data : T) : Nat := counter + 1

/-- The value `observe` returns: `return getter()`. -/
def observeValue (T : Type) (getter : Unit → T) : T := getter ()

/-- Claim C10: `observe` always returns `getter()` (the event payload is
never returned and never passed to `getter`: the registered listener ignores
its payload and only increments the re-render counter), and the cleanup
deregisters exactly the listener that was registered, so mounting and then
unmounting a fresh listener leaves the event's listener set unchanged. -/
theorem observable_hook_behavior (T : Type) (getter : Unit → T) (c : Nat) (d d' : T)
    (e : TypedEvent) (l : Nat) (hl : l ∉ e.listeners) :
    observeValue T getter = getter () ∧
    handleEvent T c d = c + 1 ∧
    handleEvent T c d = handleEvent T c d' ∧
    (e.on l).off l = e := by
  refine ⟨rfl, rfl, rfl, ?_⟩
  cases e with
  | mk ls =>
      simp only [TypedEvent.on, TypedEvent.off]
      rw [Finset.erase_insert hl]

/-- Claim C10 witness: with getter returning 42, observe returns 42; a fresh
listener 0 mounted on an event with no listeners and then unmounted leaves
the listener set empty. -/
theorem observable_hook_behavior_witness :
    observeValue Nat (fun _ => 42) = 42 ∧
    handleEvent Nat 5 9 = 6 ∧
    handleEvent Nat 5 9 = handleEvent Nat 5 10 ∧
    ((TypedEvent.mk ∅).on 0).off 0 = TypedEvent.mk ∅ :=
  observable_hook_behavior Nat (fun _ => 42) 5 9 10 ⟨∅⟩ 0 (Finset.not_mem_empty 0)
